import Mathlib

/-!
# Cache-aside store of `database.js`

A shallow embedding of `fetchWithCache` (src/database.js, lines 38-86) and of the three
prepared statements it runs against the `api_cache` table (lines 22-30).

Modelling choices, all read off the source:

* JavaScript numbers are `JSNum`: `NaN`, the two infinities, or a finite value kept as a
  rational.  The only arithmetic the function performs is `Math.max(1, x || 1)`, the
  comparison `now - row.created_at < ttl` and `computedTtl > 0`; all three are exact on
  doubles, and every double is `NaN`, infinite or a rational.
* `now` (`Math.floor(Date.now() / 1000)`) and the `created_at INTEGER` column are integers.
* `JSON.parse` and `JSON.stringify` are built-ins of the runtime; they are taken as the two
  fields of a `Json` record.
* A call of the asynchronous `apiFunction` either resolves with a value or rejects with an
  error; the model takes that outcome as `Unit → Except JSError JSVal`.
* Every prepared statement may throw; which ones do in a given call is the `Faults` record.
-/

namespace CacheStore

/-- A JavaScript number: `NaN`, `+Infinity`, `-Infinity` or a finite value. -/
inductive JSNum where
  | nan
  | posInf
  | negInf
  | fin (q : ℚ)
  deriving DecidableEq

/-- A JavaScript value of the kind `res.json()` and `JSON.parse` produce, plus `undefined`. -/
inductive JSVal where
  | undefined
  | null
  | bool (b : Bool)
  | num (n : JSNum)
  | str (s : String)
  | arr (items : List JSVal)
  | obj (fields : List (String × JSVal))

/-- A thrown JavaScript error, identified by its message. -/
abbrev JSError := String

/-- The built-in `Math.max(a, b)`: `NaN` when either argument is `NaN`. -/
def mathMax : JSNum → JSNum → JSNum
  | .nan, _ => .nan
  | _, .nan => .nan
  | .posInf, _ => .posInf
  | _, .posInf => .posInf
  | .negInf, b => b
  | a, .negInf => a
  | .fin a, .fin b => .fin (max a b)

/-- The expression `x || 1` on a number `x`: the falsy numbers are `0`, `-0` and `NaN`. -/
def orOne : JSNum → JSNum
  | .nan => .fin 1
  | .fin q => if q = 0 then .fin 1 else .fin q
  | x => x

/-- The comparison `a < b` on numbers: false as soon as one side is `NaN`. -/
def jsLt : JSNum → JSNum → Bool
  | .nan, _ => false
  | _, .nan => false
  | .posInf, _ => false
  | _, .negInf => false
  | .negInf, _ => true
  | _, .posInf => true
  | .fin a, .fin b => decide (a < b)

/-- The comparison `a <= b` on numbers: false as soon as one side is `NaN`. -/
def jsLe : JSNum → JSNum → Bool
  | .nan, _ => false
  | _, .nan => false
  | _, .posInf => true
  | .negInf, _ => true
  | .posInf, _ => false
  | _, .negInf => false
  | .fin a, .fin b => decide (a ≤ b)

/-- The coercion `Number(x)` where `x` already is a number (the JSDoc of `fetchWithCache` declares
`ttl_seconds` as `number | ((freshData:any)=>number)`): the identity. -/
def Number (x : JSNum) : JSNum := x

/-- The clamp `Math.max(1, Number(x) || 1)` of lines 50, 55, 69 and 70. -/
def clampTtl (x : JSNum) : JSNum := mathMax (.fin 1) (orOne (Number x))

/-- The runtime's `JSON.parse` and `JSON.stringify`.  `parse` throws on malformed text;
`stringify` is `none` when it throws or yields `undefined`, in which case no row is written. -/
structure Json where
  parse : String → Except JSError JSVal
  stringify : JSVal → Option String

/-- A row of `api_cache(key TEXT PRIMARY KEY, data TEXT NOT NULL, created_at INTEGER NOT NULL)`. -/
structure Row where
  key : String
  data : String
  created_at : Int
  deriving DecidableEq

/-- The contents of the table `api_cache`. -/
abbrev Table := List Row

/-- The primary-key constraint of `api_cache`: no two rows share a key. -/
def PrimaryKey (tbl : Table) : Prop := (tbl.map Row.key).Nodup

/-- The statements that throw during one call, each with the error it throws. -/
structure Faults where
  getErr : Option JSError
  upsertErr : Option JSError
  deleteErr : Option JSError

/-- A storage engine on which every statement succeeds. -/
def noFaults : Faults := ⟨none, none, none⟩

/-- The row `SELECT key, data, created_at FROM api_cache WHERE key = ?` yields, if any. -/
def selectRow (tbl : Table) (key : String) : Option Row :=
  tbl.find? (fun r => r.key == key)

/-- The table after `INSERT ... ON CONFLICT(key) DO UPDATE SET data = excluded.data,
created_at = excluded.created_at`. -/
def upsertRow (tbl : Table) (key data : String) (now : Int) : Table :=
  if tbl.any (fun r => r.key == key) then
    tbl.map (fun r => if r.key == key then { r with data := data, created_at := now } else r)
  else
    tbl ++ [⟨key, data, now⟩]

/-- The table after `DELETE FROM api_cache WHERE key = ?`. -/
def deleteRow (tbl : Table) (key : String) : Table :=
  tbl.filter (fun r => r.key != key)

/-- The call `stmtGet.get(key)`: throws, or yields the row (`undefined` when there is none). -/
def stmtGet (io : Faults) (tbl : Table) (key : String) : Except JSError (Option Row) :=
  match io.getErr with
  | some e => .error e
  | none => .ok (selectRow tbl key)

/-- The call `stmtUpsert.run(key, data, now)`: throws and leaves the table as it was, or upserts. -/
def stmtUpsert (io : Faults) (tbl : Table) (key data : String) (now : Int) :
    Except JSError Table :=
  match io.upsertErr with
  | some e => .error e
  | none => .ok (upsertRow tbl key data now)

/-- The call `stmtDelete.run(key)`: throws and leaves the table as it was, or deletes. -/
def stmtDelete (io : Faults) (tbl : Table) (key : String) : Except JSError Table :=
  match io.deleteErr with
  | some e => .error e
  | none => .ok (deleteRow tbl key)

/-- The argument `ttl_seconds`: a number, or a function of the data (`typeof ttl_seconds ===
"function"`), which may throw. -/
inductive TtlSpec where
  | fixed (n : JSNum)
  | dynamic (f : JSVal → Except JSError JSNum)

/-- The constant `ttl` of lines 44-55: for a function, computed from the parsed cached data
inside a `try` whose `catch` returns 1; for a number, the clamp of that number. -/
def cachedTtl (json : Json) (ttl_seconds : TtlSpec) (row : Row) : JSNum :=
  match ttl_seconds with
  | .dynamic f =>
    match json.parse row.data with
    | .error _ => .fin 1
    | .ok parsed =>
      match f parsed with
      | .error _ => .fin 1
      | .ok x => clampTtl x
  | .fixed n => clampTtl n

/-- The `try` block of lines 41-63: `some v` when it returns `v` (a cache hit), `none` when
control falls through to the fetch (no row, stale row, or anything thrown inside). -/
def readCache (json : Json) (io : Faults) (tbl : Table) (key : String)
    (ttl_seconds : TtlSpec) (now : Int) : Option JSVal :=
  match stmtGet io tbl key with
  | .error _ => none
  | .ok none => none
  | .ok (some row) =>
    if jsLt (.fin ((now - row.created_at : Int) : ℚ)) (cachedTtl json ttl_seconds row) then
      match json.parse row.data with
      | .ok v => some v
      | .error _ => none
    else
      none

/-- The constant `computedTtl` of lines 67-70; a throwing `ttl_seconds(fresh)` is not
caught. -/
def computedTtl (ttl_seconds : TtlSpec) (fresh : JSVal) : Except JSError JSNum :=
  match ttl_seconds with
  | .dynamic f =>
    match f fresh with
    | .error e => .error e
    | .ok x => .ok (clampTtl x)
  | .fixed n => .ok (clampTtl n)

/-- The place at which a call of `fetchWithCache` ends. -/
inductive Branch where
  | hit
  | fetchThrew
  | ttlThrew
  | upsert
  | delete
  deriving DecidableEq

/-- What a call of `fetchWithCache` does: its result (resolved value or rejection), the
table afterwards, how often `apiFunction` was invoked and the branch taken. -/
structure Outcome where
  result : Except JSError JSVal
  table : Table
  fetches : Nat
  branch : Branch

/-- The function `fetchWithCache(key, apiFunction, ttl_seconds)` run at time `now` on the
table `tbl`. -/
def fetchWithCache (json : Json) (io : Faults) (tbl : Table) (key : String)
    (apiFunction : Unit → Except JSError JSVal) (ttl_seconds : TtlSpec) (now : Int) :
    Outcome :=
  match readCache json io tbl key ttl_seconds now with
  | some v => ⟨.ok v, tbl, 0, .hit⟩
  | none =>
    match apiFunction () with
    | .error e => ⟨.error e, tbl, 1, .fetchThrew⟩
    | .ok fresh =>
      match computedTtl ttl_seconds fresh with
      | .error e => ⟨.error e, tbl, 1, .ttlThrew⟩
      | .ok ttl =>
        if jsLt (.fin 0) ttl then
          match json.stringify fresh with
          | none => ⟨.ok fresh, tbl, 1, .upsert⟩
          | some data =>
            match stmtUpsert io tbl key data now with
            | .ok tbl' => ⟨.ok fresh, tbl', 1, .upsert⟩
            | .error _ => ⟨.ok fresh, tbl, 1, .upsert⟩
        else
          match stmtDelete io tbl key with
          | .ok tbl' => ⟨.ok fresh, tbl', 1, .delete⟩
          | .error _ => ⟨.ok fresh, tbl, 1, .delete⟩

/-! ## Sample runtime and inputs used to instantiate the theorems -/

/-- The JSON text of the object with a payload `x` that expires in five seconds. -/
def playText : String := "\x7b\"payload\":\"x\",\"expires_in\":5\x7d"

/-- The value `playText` denotes. -/
def playVal : JSVal := .obj [("payload", .str "x"), ("expires_in", .num (.fin 5))]

/-- The JSON text of the object whose `expires_in` is zero. -/
def zeroText : String := "\x7b\"expires_in\":0\x7d"

/-- The value `zeroText` denotes. -/
def zeroVal : JSVal := .obj [("expires_in", .num (.fin 0))]

/-- A fragment of `JSON.parse`: the four texts used below; anything else is a syntax error. -/
def sampleParse (s : String) : Except JSError JSVal :=
  if s = "\"v1\"" then .ok (.str "v1")
  else if s = "\"v2\"" then .ok (.str "v2")
  else if s = playText then .ok playVal
  else if s = zeroText then .ok zeroVal
  else .error "SyntaxError"

/-- A fragment of `JSON.stringify`, inverse to `sampleParse`; `undefined` has no text. -/
def sampleStringify : JSVal → Option String
  | .str s => if s = "v1" then some "\"v1\"" else if s = "v2" then some "\"v2\"" else none
  | .obj [("payload", .str s), ("expires_in", .num (.fin q))] =>
    if s = "x" ∧ q = 5 then some playText else none
  | .obj [("expires_in", .num (.fin q))] => if q = 0 then some zeroText else none
  | _ => none

/-- The sample runtime. -/
def sampleJson : Json := ⟨sampleParse, sampleStringify⟩

/-- The property read `v[name]` on a plain object; `undefined` when absent. -/
def getField (name : String) : List (String × JSVal) → JSVal
  | [] => .undefined
  | (k, v) :: rest => if k = name then v else getField name rest

/-- The TTL function `(v) => typeof v.expires_in === "number" ? v.expires_in : NaN`; the
property read throws on `null` and `undefined`. -/
def expiresIn : JSVal → Except JSError JSNum
  | .undefined => .error "TypeError"
  | .null => .error "TypeError"
  | .obj fields =>
    match getField "expires_in" fields with
    | .num n => .ok n
    | _ => .ok .nan
  | _ => .ok .nan

/-- A TTL function that always throws. -/
def throwingTtl : JSVal → Except JSError JSNum := fun _ => .error "boom"

/-! ## The play-link TTL function of `app.js` -/

/-- The runtime's two conversions between numbers and their text: `Number(s)` on a string
and `String(n)` on a number.  Neither ever throws. -/
structure Coercions where
  stringToNumber : String → JSNum
  numberToString : JSNum → String

/-- The error thrown when an object cannot be converted to a primitive value. -/
def typeError : JSError := "TypeError: Cannot convert object to primitive value"

/-- Whether the object with these own properties has an own property `name`. -/
def hasOwn (name : String) (fields : List (String × JSVal)) : Bool :=
  fields.any (fun p => p.1 == name)

/-- The text of a plain object.  Its inherited `valueOf` returns the object itself, so the
conversion falls to `toString`: the inherited one gives `[object Object]`; an own property
`toString` of a value built from data is not callable, nothing is left to call, and the
conversion throws. -/
def objectText (fields : List (String × JSVal)) : Except JSError String :=
  if hasOwn "toString" fields then .error typeError else .ok "[object Object]"

mutual
/-- The conversion `String(v)` of a value: an array is the text `Array.prototype.join`
gives with a comma. -/
def toStringValue (rt : Coercions) : JSVal → Except JSError String
  | .undefined => .ok "undefined"
  | .null => .ok "null"
  | .bool true => .ok "true"
  | .bool false => .ok "false"
  | .num n => .ok (rt.numberToString n)
  | .str s => .ok s
  | .arr items => joinItems rt items
  | .obj fields => objectText fields
/-- The text of one element inside `join`: empty for `undefined` and `null`, the
conversion to string otherwise. -/
def elementText (rt : Coercions) : JSVal → Except JSError String
  | .undefined => .ok ""
  | .null => .ok ""
  | .bool true => .ok "true"
  | .bool false => .ok "false"
  | .num n => .ok (rt.numberToString n)
  | .str s => .ok s
  | .arr items => joinItems rt items
  | .obj fields => objectText fields
/-- The method `Array.prototype.join` with a comma, elements converted from the left; the
first element that throws ends it. -/
def joinItems (rt : Coercions) : List JSVal → Except JSError String
  | [] => .ok ""
  | [x] => elementText rt x
  | x :: y :: rest =>
    match elementText rt x with
    | .error e => .error e
    | .ok a =>
      match joinItems rt (y :: rest) with
      | .error e => .error e
      | .ok b => .ok (a ++ "," ++ b)
end

/-- The coercion `Number(v)` on a value: `undefined` is `NaN`, `null` is 0, `true` is 1,
`false` is 0, a number is itself, a string is converted by the runtime; an array and a
plain object are first converted to their text, which may throw; the text
`[object Object]` is not numeric. -/
def toNumber (rt : Coercions) : JSVal → Except JSError JSNum
  | .undefined => .ok .nan
  | .null => .ok (.fin 0)
  | .bool true => .ok (.fin 1)
  | .bool false => .ok (.fin 0)
  | .num n => .ok n
  | .str s => .ok (rt.stringToNumber s)
  | .arr items =>
    match joinItems rt items with
    | .error e => .error e
    | .ok s => .ok (rt.stringToNumber s)
  | .obj fields =>
    match objectText fields with
    | .error e => .error e
    | .ok _ => .ok .nan

/-- The expression `fresh?.expires_in`: `undefined` when `fresh` is `null` or `undefined`,
the own property on a plain object, and `undefined` on every other kind of value (which
has no such property). -/
def optExpiresIn : JSVal → JSVal
  | .obj fields => getField "expires_in" fields
  | _ => .undefined

/-- The built-in `Number.isFinite` on a number. -/
def isFinite : JSNum → Bool
  | .fin _ => true
  | _ => false

/-- The TTL function passed by the routes `/watch/:code` (app.js, lines 124-128) and
`/api/play/:code` (lines 187-190):
`(fresh) => { const ttl = Number(fresh?.expires_in);
return Number.isFinite(ttl) && ttl > 0 ? ttl : 600; }`.  It throws when `Number` does. -/
def playTtl (rt : Coercions) (fresh : JSVal) : Except JSError JSNum :=
  match toNumber rt (optExpiresIn fresh) with
  | .error e => .error e
  | .ok ttl => if isFinite ttl && jsLt (.fin 0) ttl then .ok ttl else .ok (.fin 600)

/-- The value of a text made of decimal digits only, read from the left with the value
`acc` so far; `none` when another character occurs. -/
def digitsValue (acc : Nat) : List Char → Option Nat
  | [] => some acc
  | c :: rest =>
    if c.isDigit then digitsValue (acc * 10 + (c.toNat - 48)) rest else none

/-- A fragment of `Number(s)` on strings: the empty string is 0, a string of decimal
digits is its value; every other text is taken as not numeric. -/
def sampleStringToNumber (s : String) : JSNum :=
  match digitsValue 0 s.data with
  | some n => .fin (n : ℚ)
  | none => .nan

/-- A fragment of `String(n)` on numbers: `NaN`, the infinities and the integers (written
in decimal digits, which is the text of an integer below `10 ^ 21` in absolute value);
other numbers, not used below, are given the text of `NaN`. -/
def sampleNumberToString : JSNum → String
  | .nan => "NaN"
  | .posInf => "Infinity"
  | .negInf => "-Infinity"
  | .fin q =>
    if q.den = 1 then
      (if q.num < 0 then "-" ++ Nat.repr q.num.natAbs else Nat.repr q.num.natAbs)
    else "NaN"

/-- The sample conversions. -/
def sampleCoercions : Coercions := ⟨sampleStringToNumber, sampleNumberToString⟩

/-- The play-link object whose `expires_in` is the string `"300"`. -/
def textExpiryVal : JSVal :=
  .obj [("url", .str "https://cdn/a.m3u8"), ("expires_in", .str "300")]

/-- The play-link object whose `expires_in` is an object with the own property `toString`
set to 1, as in the JSON text `{"url":"https://cdn/a.m3u8","expires_in":{"toString":1}}`. -/
def unconvertibleExpiryVal : JSVal :=
  .obj [("url", .str "https://cdn/a.m3u8"),
    ("expires_in", .obj [("toString", .num (.fin 1))])]

/-! ## Arithmetic of the clamp -/

theorem clampTtl_fin (q : ℚ) : clampTtl (.fin q) = .fin (max 1 q) := by
  by_cases h0 : q = 0
  · subst h0
    simp [clampTtl, Number, orOne, mathMax]
  · simp [clampTtl, Number, orOne, mathMax, h0]

theorem clampTtl_ge_one (x : JSNum) : jsLe (.fin 1) (clampTtl x) = true := by
  cases x with
  | nan => simp [clampTtl, Number, orOne, mathMax, jsLe]
  | posInf => simp [clampTtl, Number, orOne, mathMax, jsLe]
  | negInf => simp [clampTtl, Number, orOne, mathMax, jsLe]
  | fin q => simp [clampTtl_fin, jsLe]

theorem clampTtl_pos (x : JSNum) : jsLt (.fin 0) (clampTtl x) = true := by
  cases x with
  | nan => simp [clampTtl, Number, orOne, mathMax, jsLt]
  | posInf => simp [clampTtl, Number, orOne, mathMax, jsLt]
  | negInf => simp [clampTtl, Number, orOne, mathMax, jsLt]
  | fin q =>
    have : (0 : ℚ) < max 1 q := lt_of_lt_of_le one_pos (le_max_left 1 q)
    simp [clampTtl_fin, jsLt, this]

theorem clampTtl_of_ge_one {t : JSNum} (h : jsLe (.fin 1) t = true) : clampTtl t = t := by
  cases t with
  | nan => simp [jsLe] at h
  | posInf => simp [clampTtl, Number, orOne, mathMax]
  | negInf => simp [jsLe] at h
  | fin q =>
    have hq : (1 : ℚ) ≤ q := by simpa [jsLe] using h
    have h0 : q ≠ 0 := by intro h0; rw [h0] at hq; norm_num at hq
    simp [clampTtl, Number, orOne, mathMax, h0, hq]

theorem clampTtl_of_le_zero {x : JSNum} (h : jsLe x (.fin 0) = true) : clampTtl x = .fin 1 := by
  cases x with
  | nan => simp [jsLe] at h
  | posInf => simp [jsLe] at h
  | negInf => simp [clampTtl, Number, orOne, mathMax]
  | fin q =>
    have hq : q ≤ 0 := by simpa [jsLe] using h
    by_cases h0 : q = 0
    · simp [clampTtl, Number, orOne, mathMax, h0]
    · have : q ≤ 1 := le_trans hq (by norm_num)
      simp [clampTtl, Number, orOne, mathMax, h0, this]

theorem jsLt_false_of_jsLe {a b : JSNum} (h : jsLe b a = true) : jsLt a b = false := by
  cases a <;> cases b <;> simp_all [jsLe, jsLt]

/-! ## The table statements -/

theorem find_map_update (tbl : Table) (key data : String) (now : Int)
    (h : tbl.any (fun r => r.key == key) = true) :
    (tbl.map (fun r => if r.key == key then { r with data := data, created_at := now }
      else r)).find? (fun r => r.key == key) = some ⟨key, data, now⟩ := by
  induction tbl with
  | nil => simp at h
  | cons r rest ih =>
    by_cases hk : r.key = key
    · have hb : (r.key == key) = true := by simp [hk]
      simp only [List.map_cons, List.find?_cons, hb, if_true, beq_self_eq_true, hk]
    · have hb : (r.key == key) = false := by simp [hk]
      have hrest : rest.any (fun r => r.key == key) = true := by
        simpa [hk] using h
      simp only [List.map_cons, List.find?_cons, hb, Bool.false_eq_true, if_false]
      exact ih hrest

theorem find_append_new (tbl : Table) (key data : String) (now : Int)
    (h : ¬ tbl.any (fun r => r.key == key) = true) :
    (tbl ++ [(⟨key, data, now⟩ : Row)]).find? (fun r => r.key == key)
      = some ⟨key, data, now⟩ := by
  induction tbl with
  | nil => simp
  | cons r rest ih =>
    by_cases hk : r.key = key
    · exact absurd (by simp [hk]) h
    · have hb : (r.key == key) = false := by simp [hk]
      have hrest : ¬ rest.any (fun r => r.key == key) = true := by
        simpa [hk] using h
      simp only [List.cons_append, List.find?_cons, hb]
      exact ih hrest

theorem selectRow_upsertRow_self (tbl : Table) (key data : String) (now : Int) :
    selectRow (upsertRow tbl key data now) key = some ⟨key, data, now⟩ := by
  unfold upsertRow selectRow
  split
  · rename_i hany
    exact find_map_update tbl key data now hany
  · rename_i hany
    exact find_append_new tbl key data now hany

theorem find_map_update_of_ne (tbl : Table) (key data : String) (now : Int) (k : String)
    (hk : k ≠ key) :
    (tbl.map (fun r => if r.key == key then { r with data := data, created_at := now }
      else r)).find? (fun r => r.key == k) = tbl.find? (fun r => r.key == k) := by
  induction tbl with
  | nil => rfl
  | cons r rest ih =>
    by_cases h1 : r.key = key
    · have hb : (r.key == key) = true := by simp [h1]
      have hb2 : (r.key == k) = false := by
        simp only [beq_eq_false_iff_ne, ne_eq, h1]
        exact fun h => hk h.symm
      simp only [List.map_cons, List.find?_cons, hb, if_true, hb2]
      exact ih
    · have hb : (r.key == key) = false := by simp [h1]
      simp only [List.map_cons, List.find?_cons, hb, Bool.false_eq_true, if_false]
      cases hr : (r.key == k) with
      | true => rfl
      | false => exact ih

theorem selectRow_upsertRow_of_ne (tbl : Table) (key data : String) (now : Int) (k : String)
    (hk : k ≠ key) : selectRow (upsertRow tbl key data now) k = selectRow tbl k := by
  unfold upsertRow selectRow
  split
  · exact find_map_update_of_ne tbl key data now k hk
  · have hb : (key == k) = false := by
      simp only [beq_eq_false_iff_ne, ne_eq]
      exact fun h => hk h.symm
    rw [List.find?_append]
    simp only [List.find?_cons, hb, List.find?_nil, Option.or_none]

theorem keys_map_update (tbl : Table) (key data : String) (now : Int) :
    (tbl.map (fun r => if r.key == key then { r with data := data, created_at := now }
      else r)).map Row.key = tbl.map Row.key := by
  induction tbl with
  | nil => simp
  | cons r rest ih =>
    by_cases hk : r.key = key
    · simpa [hk] using ih
    · simpa [hk] using ih

theorem primaryKey_upsertRow (tbl : Table) (key data : String) (now : Int)
    (h : PrimaryKey tbl) : PrimaryKey (upsertRow tbl key data now) := by
  unfold upsertRow PrimaryKey at *
  split
  · rw [keys_map_update]
    exact h
  · rename_i hany
    have hnot : key ∉ tbl.map Row.key := by
      intro hmem
      apply hany
      obtain ⟨r, hr, hrk⟩ := List.mem_map.mp hmem
      exact List.any_eq_true.mpr ⟨r, hr, by simp [hrk]⟩
    rw [List.map_append, List.nodup_append]
    refine ⟨h, by simp, ?_⟩
    intro a ha hb
    simp at hb
    subst hb
    exact hnot ha

theorem selectRow_deleteRow_self (tbl : Table) (key : String) :
    selectRow (deleteRow tbl key) key = none := by
  unfold selectRow deleteRow
  simp [List.find?_eq_none]

/-! ## The read phase -/

theorem readCache_of_getError (json : Json) (io : Faults) (tbl : Table) (key : String)
    (ttl : TtlSpec) (now : Int) (e : JSError) (h : stmtGet io tbl key = .error e) :
    readCache json io tbl key ttl now = none := by
  simp [readCache, h]

theorem readCache_of_absent (json : Json) (io : Faults) (tbl : Table) (key : String)
    (ttl : TtlSpec) (now : Int) (h : stmtGet io tbl key = .ok none) :
    readCache json io tbl key ttl now = none := by
  simp [readCache, h]

theorem readCache_of_stale (json : Json) (io : Faults) (tbl : Table) (key : String)
    (ttl : TtlSpec) (now : Int) (row : Row) (h : stmtGet io tbl key = .ok (some row))
    (hs : jsLt (.fin ((now - row.created_at : Int) : ℚ)) (cachedTtl json ttl row) = false) :
    readCache json io tbl key ttl now = none := by
  simp only [readCache, h, hs, Bool.false_eq_true, if_false]

theorem readCache_of_malformed (json : Json) (io : Faults) (tbl : Table) (key : String)
    (ttl : TtlSpec) (now : Int) (row : Row) (e : JSError)
    (h : stmtGet io tbl key = .ok (some row)) (hp : json.parse row.data = .error e) :
    readCache json io tbl key ttl now = none := by
  simp only [readCache, h, hp]
  split <;> rfl

theorem readCache_of_fresh (json : Json) (io : Faults) (tbl : Table) (key : String)
    (ttl : TtlSpec) (now : Int) (row : Row) (v : JSVal)
    (h : stmtGet io tbl key = .ok (some row)) (hp : json.parse row.data = .ok v)
    (hf : jsLt (.fin ((now - row.created_at : Int) : ℚ)) (cachedTtl json ttl row) = true) :
    readCache json io tbl key ttl now = some v := by
  simp only [readCache, h, hp, hf, if_true]

/-! ## The whole call -/

theorem fetchWithCache_of_hit (json : Json) (io : Faults) (tbl : Table) (key : String)
    (api : Unit → Except JSError JSVal) (ttl : TtlSpec) (now : Int) (v : JSVal)
    (h : readCache json io tbl key ttl now = some v) :
    fetchWithCache json io tbl key api ttl now = ⟨.ok v, tbl, 0, .hit⟩ := by
  simp [fetchWithCache, h]

theorem fetchWithCache_of_fetchError (json : Json) (io : Faults) (tbl : Table) (key : String)
    (api : Unit → Except JSError JSVal) (ttl : TtlSpec) (now : Int) (e : JSError)
    (h : readCache json io tbl key ttl now = none) (hf : api () = .error e) :
    fetchWithCache json io tbl key api ttl now = ⟨.error e, tbl, 1, .fetchThrew⟩ := by
  simp [fetchWithCache, h, hf]

theorem fetchWithCache_of_ttlError (json : Json) (io : Faults) (tbl : Table) (key : String)
    (api : Unit → Except JSError JSVal) (ttl : TtlSpec) (now : Int) (fresh : JSVal)
    (e : JSError) (h : readCache json io tbl key ttl now = none) (hf : api () = .ok fresh)
    (ht : computedTtl ttl fresh = .error e) :
    fetchWithCache json io tbl key api ttl now = ⟨.error e, tbl, 1, .ttlThrew⟩ := by
  simp [fetchWithCache, h, hf, ht]

theorem computedTtl_pos (ttl : TtlSpec) (fresh : JSVal) (c : JSNum)
    (h : computedTtl ttl fresh = .ok c) : jsLt (.fin 0) c = true := by
  cases ttl with
  | fixed n =>
    simp only [computedTtl, Except.ok.injEq] at h
    rw [← h]
    exact clampTtl_pos n
  | dynamic f =>
    simp only [computedTtl] at h
    split at h
    · simp at h
    · simp only [Except.ok.injEq] at h
      rw [← h]
      exact clampTtl_pos _

/-- After a miss, a successful fetch and a TTL that did not throw, the call returns the
fresh value through the upsert branch; the table is the upserted one exactly when both
`JSON.stringify` and the statement succeed. -/
theorem fetchWithCache_of_fetched (json : Json) (io : Faults) (tbl : Table) (key : String)
    (api : Unit → Except JSError JSVal) (ttl : TtlSpec) (now : Int) (fresh : JSVal)
    (c : JSNum) (h : readCache json io tbl key ttl now = none) (hf : api () = .ok fresh)
    (ht : computedTtl ttl fresh = .ok c) :
    fetchWithCache json io tbl key api ttl now =
      ⟨.ok fresh,
        match json.stringify fresh with
        | none => tbl
        | some data =>
          match io.upsertErr with
          | some _ => tbl
          | none => upsertRow tbl key data now,
        1, .upsert⟩ := by
  have hpos := computedTtl_pos ttl fresh c ht
  simp only [fetchWithCache, h, hf, ht, hpos, if_true]
  cases hs : json.stringify fresh with
  | none => rfl
  | some data =>
    cases hu : io.upsertErr with
    | none => simp [stmtUpsert, hu]
    | some e => simp [stmtUpsert, hu]

theorem cachedTtl_fixed_of_ge_one (json : Json) (T : JSNum) (row : Row)
    (hT : jsLe (.fin 1) T = true) : cachedTtl json (.fixed T) row = T := by
  simp only [cachedTtl]
  exact clampTtl_of_ge_one hT

theorem stmtGet_noFaults (tbl : Table) (key : String) :
    stmtGet noFaults tbl key = .ok (selectRow tbl key) := rfl

/-! ## C1: cache hit -/

/-- C1. Cache hit: when the table holds a row for `key` whose data parses to `v1`, the TTL
is a fixed number `T >= 1` and `now - created_at < T`, the call returns `v1`, does not
invoke `apiFunction` and leaves the table as it was. -/
theorem hit_within_ttl (json : Json) (io : Faults) (tbl : Table) (key : String)
    (apiFunction : Unit → Except JSError JSVal) (T : JSNum) (now : Int) (row : Row)
    (v1 : JSVal)
    (hrow : stmtGet io tbl key = .ok (some row))
    (hparse : json.parse row.data = .ok v1)
    (hT : jsLe (.fin 1) T = true)
    (hfresh : jsLt (.fin ((now - row.created_at : Int) : ℚ)) T = true) :
    (fetchWithCache json io tbl key apiFunction (.fixed T) now).result = .ok v1 ∧
    (fetchWithCache json io tbl key apiFunction (.fixed T) now).fetches = 0 ∧
    (fetchWithCache json io tbl key apiFunction (.fixed T) now).table = tbl := by
  have hf : jsLt (.fin ((now - row.created_at : Int) : ℚ))
      (cachedTtl json (.fixed T) row) = true := by
    rw [cachedTtl_fixed_of_ge_one json T row hT]
    exact hfresh
  have hread := readCache_of_fresh json io tbl key (.fixed T) now row v1 hrow hparse hf
  rw [fetchWithCache_of_hit json io tbl key apiFunction (.fixed T) now v1 hread]
  exact ⟨rfl, rfl, rfl⟩

/-- Instance of C1: `v1` stored at 1000 with TTL 100 is served at 1050 although the fetch
would return `v2`. -/
theorem hit_within_ttl_witness :
    stmtGet noFaults [⟨"home:en", "\"v1\"", 1000⟩] "home:en"
      = .ok (some ⟨"home:en", "\"v1\"", 1000⟩) ∧
    sampleJson.parse "\"v1\"" = .ok (.str "v1") ∧
    jsLe (.fin 1) (.fin 100) = true ∧
    jsLt (.fin (((1050 : Int) - 1000 : Int) : ℚ)) (.fin 100) = true ∧
    (fetchWithCache sampleJson noFaults [⟨"home:en", "\"v1\"", 1000⟩] "home:en"
      (fun _ => .ok (.str "v2")) (.fixed (.fin 100)) 1050).result = .ok (.str "v1") ∧
    (fetchWithCache sampleJson noFaults [⟨"home:en", "\"v1\"", 1000⟩] "home:en"
      (fun _ => .ok (.str "v2")) (.fixed (.fin 100)) 1050).fetches = 0 ∧
    (fetchWithCache sampleJson noFaults [⟨"home:en", "\"v1\"", 1000⟩] "home:en"
      (fun _ => .ok (.str "v2")) (.fixed (.fin 100)) 1050).table
      = [⟨"home:en", "\"v1\"", 1000⟩] :=
  ⟨rfl, rfl, by norm_num [jsLe], by norm_num [jsLt],
    hit_within_ttl sampleJson noFaults [⟨"home:en", "\"v1\"", 1000⟩] "home:en"
      (fun _ => .ok (.str "v2")) (.fin 100) 1050 ⟨"home:en", "\"v1\"", 1000⟩ (.str "v1")
      rfl rfl (by norm_num [jsLe]) (by norm_num [jsLt])⟩

/-! ## C2: miss or stale refresh -/

theorem readCache_fixed_of_miss (json : Json) (tbl : Table) (key : String) (T : JSNum)
    (now : Int) (hT : jsLe (.fin 1) T = true)
    (hmiss : selectRow tbl key = none ∨
      ∃ row, selectRow tbl key = some row ∧
        jsLe T (.fin ((now - row.created_at : Int) : ℚ)) = true) :
    readCache json noFaults tbl key (.fixed T) now = none := by
  rcases hmiss with habs | ⟨row, hrow, hstale⟩
  · exact readCache_of_absent json noFaults tbl key (.fixed T) now
      (by rw [stmtGet_noFaults, habs])
  · refine readCache_of_stale json noFaults tbl key (.fixed T) now row
      (by rw [stmtGet_noFaults, hrow]) ?_
    rw [cachedTtl_fixed_of_ge_one json T row hT]
    exact jsLt_false_of_jsLe hstale

theorem fetchWithCache_refresh_fixed (json : Json) (tbl : Table) (key : String)
    (api : Unit → Except JSError JSVal) (T : JSNum) (now : Int) (v : JSVal) (data : String)
    (hread : readCache json noFaults tbl key (.fixed T) now = none)
    (hfetch : api () = .ok v) (hser : json.stringify v = some data) :
    fetchWithCache json noFaults tbl key api (.fixed T) now
      = ⟨.ok v, upsertRow tbl key data now, 1, .upsert⟩ := by
  rw [fetchWithCache_of_fetched json noFaults tbl key api (.fixed T) now v (clampTtl T)
    hread hfetch rfl]
  simp only [hser, noFaults]

/-- C2. Miss or stale refresh: with a fixed TTL `T >= 1`, a key that is absent or whose row
satisfies `now - created_at >= T`, a fetch that succeeds with `v2` and storage operations
that succeed, the call invokes the fetch once, returns `v2`, and the table afterwards is
the old one with the row of `key` replaced by `(stringify v2, now)`: that row is the one
read back for `key`, every other key reads as before, and the primary key is kept.  When
the stored text parses back to `v2`, a following call at `now + 1` returns `v2`; if
moreover `1 < T` it does so from the cache, whatever its fetch would return. -/
theorem miss_or_stale_refresh (json : Json) (tbl : Table) (key : String)
    (apiFunction : Unit → Except JSError JSVal) (T : JSNum) (now : Int) (v2 : JSVal)
    (data : String)
    (hT : jsLe (.fin 1) T = true)
    (hmiss : selectRow tbl key = none ∨
      ∃ row, selectRow tbl key = some row ∧
        jsLe T (.fin ((now - row.created_at : Int) : ℚ)) = true)
    (hfetch : apiFunction () = .ok v2)
    (hser : json.stringify v2 = some data) :
    (fetchWithCache json noFaults tbl key apiFunction (.fixed T) now).result = .ok v2 ∧
    (fetchWithCache json noFaults tbl key apiFunction (.fixed T) now).fetches = 1 ∧
    (fetchWithCache json noFaults tbl key apiFunction (.fixed T) now).table
      = upsertRow tbl key data now ∧
    selectRow (fetchWithCache json noFaults tbl key apiFunction (.fixed T) now).table key
      = some ⟨key, data, now⟩ ∧
    (∀ k, k ≠ key →
      selectRow (fetchWithCache json noFaults tbl key apiFunction (.fixed T) now).table k
        = selectRow tbl k) ∧
    (PrimaryKey tbl →
      PrimaryKey (fetchWithCache json noFaults tbl key apiFunction (.fixed T) now).table) ∧
    (json.parse data = .ok v2 →
      (fetchWithCache json noFaults
        (fetchWithCache json noFaults tbl key apiFunction (.fixed T) now).table
        key apiFunction (.fixed T) (now + 1)).result = .ok v2 ∧
      (jsLt (.fin 1) T = true → ∀ api2 : Unit → Except JSError JSVal,
        (fetchWithCache json noFaults
          (fetchWithCache json noFaults tbl key apiFunction (.fixed T) now).table
          key api2 (.fixed T) (now + 1)).result = .ok v2 ∧
        (fetchWithCache json noFaults
          (fetchWithCache json noFaults tbl key apiFunction (.fixed T) now).table
          key api2 (.fixed T) (now + 1)).fetches = 0)) := by
  have hread := readCache_fixed_of_miss json tbl key T now hT hmiss
  rw [fetchWithCache_refresh_fixed json tbl key apiFunction T now v2 data hread hfetch hser]
  refine ⟨rfl, rfl, rfl, selectRow_upsertRow_self tbl key data now,
    fun k hk => selectRow_upsertRow_of_ne tbl key data now k hk,
    fun hpk => primaryKey_upsertRow tbl key data now hpk, ?_⟩
  intro hround
  have hget : stmtGet noFaults (upsertRow tbl key data now) key
      = .ok (some ⟨key, data, now⟩) := by
    rw [stmtGet_noFaults, selectRow_upsertRow_self]
  have hage : (((now + 1 - now : Int) : Int) : ℚ) = 1 := by
    have : (now + 1 - now : Int) = 1 := by omega
    rw [this]
    norm_num
  have hhit : jsLt (.fin 1) T = true → ∀ api2 : Unit → Except JSError JSVal,
      fetchWithCache json noFaults (upsertRow tbl key data now) key api2 (.fixed T) (now + 1)
        = ⟨.ok v2, upsertRow tbl key data now, 0, .hit⟩ := by
    intro hlt api2
    apply fetchWithCache_of_hit
    apply readCache_of_fresh json noFaults _ key (.fixed T) (now + 1) ⟨key, data, now⟩ v2
      hget hround
    rw [cachedTtl_fixed_of_ge_one json T _ hT]
    show jsLt (.fin (((now + 1 - now : Int) : Int) : ℚ)) T = true
    rw [hage]
    exact hlt
  refine ⟨?_, fun hlt api2 => ?_⟩
  · cases hlt : jsLt (.fin 1) T with
    | true => rw [hhit hlt apiFunction]
    | false =>
      have hstale : readCache json noFaults (upsertRow tbl key data now) key (.fixed T)
          (now + 1) = none := by
        apply readCache_of_stale json noFaults _ key (.fixed T) (now + 1) ⟨key, data, now⟩
          hget
        rw [cachedTtl_fixed_of_ge_one json T _ hT]
        show jsLt (.fin (((now + 1 - now : Int) : Int) : ℚ)) T = false
        rw [hage]
        exact hlt
      rw [fetchWithCache_refresh_fixed json _ key apiFunction T (now + 1) v2 data hstale
        hfetch hser]
  · rw [hhit hlt api2]
    exact ⟨rfl, rfl⟩

/-- Instance of C2: `v1` stored at 1000 with TTL 100 is stale at 1150; the fetch returns
`v2`, which is stored and returned, and read back at 1151. -/
theorem miss_or_stale_refresh_witness :
    jsLe (.fin 1) (.fin 100) = true ∧
    (∃ row, selectRow [⟨"home:en", "\"v1\"", 1000⟩] "home:en" = some row ∧
      jsLe (.fin 100) (.fin (((1150 : Int) - row.created_at : Int) : ℚ)) = true) ∧
    sampleJson.stringify (.str "v2") = some "\"v2\"" ∧
    sampleJson.parse "\"v2\"" = .ok (.str "v2") ∧
    (fetchWithCache sampleJson noFaults [⟨"home:en", "\"v1\"", 1000⟩] "home:en"
      (fun _ => .ok (.str "v2")) (.fixed (.fin 100)) 1150).result = .ok (.str "v2") ∧
    (fetchWithCache sampleJson noFaults [⟨"home:en", "\"v1\"", 1000⟩] "home:en"
      (fun _ => .ok (.str "v2")) (.fixed (.fin 100)) 1150).fetches = 1 ∧
    (fetchWithCache sampleJson noFaults [⟨"home:en", "\"v1\"", 1000⟩] "home:en"
      (fun _ => .ok (.str "v2")) (.fixed (.fin 100)) 1150).table
      = upsertRow [⟨"home:en", "\"v1\"", 1000⟩] "home:en" "\"v2\"" 1150 ∧
    (fetchWithCache sampleJson noFaults
      (fetchWithCache sampleJson noFaults [⟨"home:en", "\"v1\"", 1000⟩] "home:en"
        (fun _ => .ok (.str "v2")) (.fixed (.fin 100)) 1150).table
      "home:en" (fun _ => .ok (.str "v2")) (.fixed (.fin 100)) (1150 + 1)).result
      = .ok (.str "v2") := by
  have hstale : ∃ row, selectRow [⟨"home:en", "\"v1\"", 1000⟩] "home:en" = some row ∧
      jsLe (.fin 100) (.fin (((1150 : Int) - row.created_at : Int) : ℚ)) = true :=
    ⟨⟨"home:en", "\"v1\"", 1000⟩, rfl, by norm_num [jsLe]⟩
  have h := miss_or_stale_refresh sampleJson [⟨"home:en", "\"v1\"", 1000⟩] "home:en"
    (fun _ => .ok (.str "v2")) (.fin 100) 1150 (.str "v2") "\"v2\""
    (by norm_num [jsLe]) (Or.inr hstale) rfl rfl
  exact ⟨by norm_num [jsLe], hstale, rfl, rfl, h.1, h.2.1, h.2.2.1, (h.2.2.2.2.2.2 rfl).1⟩

/-! ## C3: a non-positive dynamic TTL -/

/-- C3, refuted on the code: the TTL function reads `expires_in`, the key is absent and the
fetch returns the object whose `expires_in` is 0.  The call misses and returns the object,
but it does write the row, the table does hold an entry for the key afterwards, and the
immediately following call is answered from the cache without a fetch. -/
theorem nonpositive_ttl_still_cached :
    expiresIn zeroVal = .ok (.fin 0) ∧
    jsLe (.fin 0) (.fin 0) = true ∧
    readCache sampleJson noFaults [] "play:a:en:ep:1" (.dynamic expiresIn) 1000 = none ∧
    (fetchWithCache sampleJson noFaults [] "play:a:en:ep:1" (fun _ => .ok zeroVal)
      (.dynamic expiresIn) 1000).fetches = 1 ∧
    (fetchWithCache sampleJson noFaults [] "play:a:en:ep:1" (fun _ => .ok zeroVal)
      (.dynamic expiresIn) 1000).table = [⟨"play:a:en:ep:1", zeroText, 1000⟩] ∧
    selectRow (fetchWithCache sampleJson noFaults [] "play:a:en:ep:1" (fun _ => .ok zeroVal)
      (.dynamic expiresIn) 1000).table "play:a:en:ep:1" ≠ none ∧
    (fetchWithCache sampleJson noFaults
      (fetchWithCache sampleJson noFaults [] "play:a:en:ep:1" (fun _ => .ok zeroVal)
        (.dynamic expiresIn) 1000).table
      "play:a:en:ep:1" (fun _ => .ok zeroVal) (.dynamic expiresIn) 1000).fetches = 0 := by
  have hc : computedTtl (.dynamic expiresIn) zeroVal = .ok (clampTtl (.fin 0)) := rfl
  have hfirst : fetchWithCache sampleJson noFaults [] "play:a:en:ep:1" (fun _ => .ok zeroVal)
      (.dynamic expiresIn) 1000
      = ⟨.ok zeroVal, [⟨"play:a:en:ep:1", zeroText, 1000⟩], 1, .upsert⟩ := by
    rw [fetchWithCache_of_fetched sampleJson noFaults [] "play:a:en:ep:1"
      (fun _ => .ok zeroVal) (.dynamic expiresIn) 1000 zeroVal (clampTtl (.fin 0)) rfl rfl hc]
    rfl
  have hget : stmtGet noFaults [⟨"play:a:en:ep:1", zeroText, 1000⟩] "play:a:en:ep:1"
      = .ok (some ⟨"play:a:en:ep:1", zeroText, 1000⟩) := rfl
  have hparse : sampleJson.parse zeroText = .ok zeroVal := rfl
  have httl : cachedTtl sampleJson (.dynamic expiresIn) ⟨"play:a:en:ep:1", zeroText, 1000⟩
      = .fin 1 := by
    have : cachedTtl sampleJson (.dynamic expiresIn) ⟨"play:a:en:ep:1", zeroText, 1000⟩
        = clampTtl (.fin 0) := rfl
    rw [this, clampTtl_fin]
    norm_num
  have hsecond : readCache sampleJson noFaults [⟨"play:a:en:ep:1", zeroText, 1000⟩]
      "play:a:en:ep:1" (.dynamic expiresIn) 1000 = some zeroVal := by
    apply readCache_of_fresh sampleJson noFaults _ _ _ _ _ zeroVal hget hparse
    rw [httl]
    norm_num [jsLt]
  rw [hfirst]
  refine ⟨rfl, by norm_num [jsLe], rfl, rfl, rfl, ?_, ?_⟩
  · simp [selectRow]
  · rw [fetchWithCache_of_hit sampleJson noFaults _ _ _ _ _ zeroVal hsecond]

/-- C3, as the code has it: a non-positive dynamic TTL is clamped to one second, not turned
into "do not persist".  When the call misses and the fetch succeeds with `v` such that
`f v <= 0`, the write TTL is 1, the call returns `v` after one fetch and ends in the upsert
branch.  If `JSON.stringify` and the upsert succeed, the table afterwards is the upserted
one and holds `(stringify v, now)` for `key`, so that a following call in the same second
(the read succeeding and the text parsing back to `v`) is a hit without a fetch.  If one
of them fails the table is as before: no row is ever deleted. -/
theorem nonpositive_ttl_is_clamped (json : Json) (io : Faults) (tbl : Table) (key : String)
    (apiFunction : Unit → Except JSError JSVal) (f : JSVal → Except JSError JSNum)
    (now : Int) (v : JSVal) (n : JSNum)
    (hmiss : readCache json io tbl key (.dynamic f) now = none)
    (hfetch : apiFunction () = .ok v)
    (hf : f v = .ok n)
    (hn : jsLe n (.fin 0) = true) :
    computedTtl (.dynamic f) v = .ok (.fin 1) ∧
    (fetchWithCache json io tbl key apiFunction (.dynamic f) now).result = .ok v ∧
    (fetchWithCache json io tbl key apiFunction (.dynamic f) now).fetches = 1 ∧
    (fetchWithCache json io tbl key apiFunction (.dynamic f) now).branch = .upsert ∧
    (∀ data, json.stringify v = some data → io.upsertErr = none →
      (fetchWithCache json io tbl key apiFunction (.dynamic f) now).table
        = upsertRow tbl key data now ∧
      selectRow (fetchWithCache json io tbl key apiFunction (.dynamic f) now).table key
        = some ⟨key, data, now⟩ ∧
      (io.getErr = none → json.parse data = .ok v →
        ∀ api2 : Unit → Except JSError JSVal,
          (fetchWithCache json io
            (fetchWithCache json io tbl key apiFunction (.dynamic f) now).table
            key api2 (.dynamic f) now).result = .ok v ∧
          (fetchWithCache json io
            (fetchWithCache json io tbl key apiFunction (.dynamic f) now).table
            key api2 (.dynamic f) now).fetches = 0)) ∧
    ((json.stringify v = none ∨ io.upsertErr ≠ none) →
      (fetchWithCache json io tbl key apiFunction (.dynamic f) now).table = tbl) := by
  have hc : computedTtl (.dynamic f) v = .ok (.fin 1) := by
    simp only [computedTtl, hf, clampTtl_of_le_zero hn]
  rw [fetchWithCache_of_fetched json io tbl key apiFunction (.dynamic f) now v (.fin 1)
    hmiss hfetch hc]
  refine ⟨hc, rfl, rfl, rfl, ?_, ?_⟩
  · intro data hser hup
    simp only [hser, hup, true_and]
    refine ⟨selectRow_upsertRow_self tbl key data now, ?_⟩
    intro hgetOk hround api2
    have hget : stmtGet io (upsertRow tbl key data now) key
        = .ok (some ⟨key, data, now⟩) := by
      simp only [stmtGet, hgetOk, selectRow_upsertRow_self]
    have httl : cachedTtl json (.dynamic f) ⟨key, data, now⟩ = .fin 1 := by
      simp only [cachedTtl, hround, hf, clampTtl_of_le_zero hn]
    have hread : readCache json io (upsertRow tbl key data now) key (.dynamic f) now
        = some v := by
      apply readCache_of_fresh json io _ key (.dynamic f) now ⟨key, data, now⟩ v hget hround
      rw [httl]
      show jsLt (.fin (((now - now : Int) : Int) : ℚ)) (.fin 1) = true
      have : (now - now : Int) = 0 := by omega
      rw [this]
      norm_num [jsLt]
    rw [fetchWithCache_of_hit json io _ key api2 (.dynamic f) now v hread]
    exact ⟨rfl, rfl⟩
  · intro hfail
    rcases hfail with hnone | herr
    · simp only [hnone]
    · cases hs : json.stringify v with
      | none => rfl
      | some data =>
        cases hu : io.upsertErr with
        | none => exact absurd hu herr
        | some e => rfl

/-- Instance of the amended C3: the fetch returns the object whose `expires_in` is 0 while
a stale row for the key exists; the row is replaced, not deleted. -/
theorem nonpositive_ttl_is_clamped_witness :
    readCache sampleJson noFaults [⟨"play:a:en:ep:1", playText, 900⟩] "play:a:en:ep:1"
      (.dynamic expiresIn) 1000 = none ∧
    expiresIn zeroVal = .ok (.fin 0) ∧
    jsLe (.fin 0) (.fin 0) = true ∧
    (fetchWithCache sampleJson noFaults [⟨"play:a:en:ep:1", playText, 900⟩] "play:a:en:ep:1"
      (fun _ => .ok zeroVal) (.dynamic expiresIn) 1000).result = .ok zeroVal ∧
    (fetchWithCache sampleJson noFaults [⟨"play:a:en:ep:1", playText, 900⟩] "play:a:en:ep:1"
      (fun _ => .ok zeroVal) (.dynamic expiresIn) 1000).branch = .upsert ∧
    selectRow (fetchWithCache sampleJson noFaults [⟨"play:a:en:ep:1", playText, 900⟩]
      "play:a:en:ep:1" (fun _ => .ok zeroVal) (.dynamic expiresIn) 1000).table
      "play:a:en:ep:1" = some ⟨"play:a:en:ep:1", zeroText, 1000⟩ := by
  have hmiss : readCache sampleJson noFaults [⟨"play:a:en:ep:1", playText, 900⟩]
      "play:a:en:ep:1" (.dynamic expiresIn) 1000 = none := by
    apply readCache_of_stale sampleJson noFaults [⟨"play:a:en:ep:1", playText, 900⟩]
      "play:a:en:ep:1" (.dynamic expiresIn) 1000 ⟨"play:a:en:ep:1", playText, 900⟩ rfl
    have : cachedTtl sampleJson (.dynamic expiresIn) ⟨"play:a:en:ep:1", playText, 900⟩
        = clampTtl (.fin 5) := rfl
    rw [this, clampTtl_fin]
    norm_num [jsLt]
  have h := nonpositive_ttl_is_clamped sampleJson noFaults
    [⟨"play:a:en:ep:1", playText, 900⟩] "play:a:en:ep:1" (fun _ => .ok zeroVal) expiresIn
    1000 zeroVal (.fin 0) hmiss rfl rfl (by norm_num [jsLe])
  exact ⟨hmiss, rfl, by norm_num [jsLe], h.2.1, h.2.2.2.1, (h.2.2.2.2.1 zeroText rfl rfl).2.1⟩

/-! ## C4: a failing fetch -/

/-- C4. A failing fetch propagates and leaves the cache untouched: whenever the call does
not hit (the read throws, the key is absent, the row is stale, or the stored text does not
parse) and the fetch fails with `E`, the call fails with exactly `E` after one fetch and
the table is the one before the call; with no prior row there is none afterwards. -/
theorem fetch_failure_propagates (json : Json) (io : Faults) (tbl : Table) (key : String)
    (apiFunction : Unit → Except JSError JSVal) (ttl_seconds : TtlSpec) (now : Int)
    (E : JSError)
    (hmiss : (∃ e, stmtGet io tbl key = .error e) ∨
      stmtGet io tbl key = .ok none ∨
      (∃ row, stmtGet io tbl key = .ok (some row) ∧
        jsLt (.fin ((now - row.created_at : Int) : ℚ)) (cachedTtl json ttl_seconds row)
          = false) ∨
      (∃ row e, stmtGet io tbl key = .ok (some row) ∧ json.parse row.data = .error e))
    (hfetch : apiFunction () = .error E) :
    (fetchWithCache json io tbl key apiFunction ttl_seconds now).result = .error E ∧
    (fetchWithCache json io tbl key apiFunction ttl_seconds now).fetches = 1 ∧
    (fetchWithCache json io tbl key apiFunction ttl_seconds now).table = tbl ∧
    (selectRow tbl key = none →
      selectRow (fetchWithCache json io tbl key apiFunction ttl_seconds now).table key
        = none) := by
  have hread : readCache json io tbl key ttl_seconds now = none := by
    rcases hmiss with ⟨e, he⟩ | habs | ⟨row, hrow, hstale⟩ | ⟨row, e, hrow, hbad⟩
    · exact readCache_of_getError json io tbl key ttl_seconds now e he
    · exact readCache_of_absent json io tbl key ttl_seconds now habs
    · exact readCache_of_stale json io tbl key ttl_seconds now row hrow hstale
    · exact readCache_of_malformed json io tbl key ttl_seconds now row e hrow hbad
  rw [fetchWithCache_of_fetchError json io tbl key apiFunction ttl_seconds now E hread hfetch]
  exact ⟨rfl, rfl, rfl, fun h => h⟩

/-- Instance of C4: no prior entry, the fetch rejects with `E`. -/
theorem fetch_failure_propagates_witness :
    stmtGet noFaults [] "home:en" = .ok none ∧
    (fetchWithCache sampleJson noFaults [] "home:en" (fun _ => .error "E")
      (.fixed (.fin 3600)) 1000).result = .error "E" ∧
    (fetchWithCache sampleJson noFaults [] "home:en" (fun _ => .error "E")
      (.fixed (.fin 3600)) 1000).table = [] ∧
    selectRow (fetchWithCache sampleJson noFaults [] "home:en" (fun _ => .error "E")
      (.fixed (.fin 3600)) 1000).table "home:en" = none := by
  have h := fetch_failure_propagates sampleJson noFaults [] "home:en" (fun _ => .error "E")
    (.fixed (.fin 3600)) 1000 "E" (Or.inr (Or.inl rfl)) rfl
  exact ⟨rfl, h.1, h.2.2.1, h.2.2.2 rfl⟩

/-! ## C5: storage failures -/

/-- C5. Storage failures are fail-open: with a fixed TTL and a fetch that succeeds with
`v`, whatever statements throw, (a) a throwing read leads to one fetch and the result `v`,
(b) every call that gets past the read phase returns `v` after one fetch, whether the
write or delete statement succeeds or throws, and (c) the call never fails, so no storage
error is its result. -/
theorem storage_failures_fail_open (json : Json) (io : Faults) (tbl : Table) (key : String)
    (apiFunction : Unit → Except JSError JSVal) (T : JSNum) (now : Int) (v : JSVal)
    (hfetch : apiFunction () = .ok v) :
    (∀ e, io.getErr = some e →
      (fetchWithCache json io tbl key apiFunction (.fixed T) now).fetches = 1 ∧
      (fetchWithCache json io tbl key apiFunction (.fixed T) now).result = .ok v) ∧
    (readCache json io tbl key (.fixed T) now = none →
      (fetchWithCache json io tbl key apiFunction (.fixed T) now).fetches = 1 ∧
      (fetchWithCache json io tbl key apiFunction (.fixed T) now).result = .ok v) ∧
    (∀ e, (fetchWithCache json io tbl key apiFunction (.fixed T) now).result ≠ .error e) := by
  have hmiss : readCache json io tbl key (.fixed T) now = none →
      (fetchWithCache json io tbl key apiFunction (.fixed T) now).fetches = 1 ∧
      (fetchWithCache json io tbl key apiFunction (.fixed T) now).result = .ok v := by
    intro hread
    rw [fetchWithCache_of_fetched json io tbl key apiFunction (.fixed T) now v (clampTtl T)
      hread hfetch rfl]
    exact ⟨rfl, rfl⟩
  refine ⟨fun e he => hmiss ?_, hmiss, fun e => ?_⟩
  · exact readCache_of_getError json io tbl key (.fixed T) now e (by simp only [stmtGet, he])
  · cases hread : readCache json io tbl key (.fixed T) now with
    | none =>
      rw [(hmiss hread).2]
      exact fun h => Except.noConfusion h
    | some v1 =>
      rw [fetchWithCache_of_hit json io tbl key apiFunction (.fixed T) now v1 hread]
      exact fun h => Except.noConfusion h

/-- Instance of C5: every statement throws, a fresh row is in the table, and the call
still returns what the fetch returned. -/
theorem storage_failures_fail_open_witness :
    (fetchWithCache sampleJson ⟨some "SQLITE_IOERR", some "SQLITE_FULL", some "SQLITE_FULL"⟩
      [⟨"home:en", "\"v1\"", 1000⟩] "home:en" (fun _ => .ok (.str "v2"))
      (.fixed (.fin 3600)) 1001).fetches = 1 ∧
    (fetchWithCache sampleJson ⟨some "SQLITE_IOERR", some "SQLITE_FULL", some "SQLITE_FULL"⟩
      [⟨"home:en", "\"v1\"", 1000⟩] "home:en" (fun _ => .ok (.str "v2"))
      (.fixed (.fin 3600)) 1001).result = .ok (.str "v2") :=
  (storage_failures_fail_open sampleJson
    ⟨some "SQLITE_IOERR", some "SQLITE_FULL", some "SQLITE_FULL"⟩
    [⟨"home:en", "\"v1\"", 1000⟩] "home:en" (fun _ => .ok (.str "v2"))
    (.fin 3600) 1001 (.str "v2") rfl).1 "SQLITE_IOERR" rfl

/-! ## C6: dynamic TTL on the read path -/

theorem clampTtl_eq_mathMax {n : JSNum} (h : n ≠ .nan) : clampTtl n = mathMax (.fin 1) n := by
  cases n with
  | nan => exact absurd rfl h
  | posInf => rfl
  | negInf => rfl
  | fin q => rw [clampTtl_fin]; rfl

theorem fetches_of_miss (json : Json) (io : Faults) (tbl : Table) (key : String)
    (api : Unit → Except JSError JSVal) (ttl : TtlSpec) (now : Int)
    (h : readCache json io tbl key ttl now = none) :
    (fetchWithCache json io tbl key api ttl now).fetches = 1 := by
  cases hapi : api () with
  | error e => rw [fetchWithCache_of_fetchError json io tbl key api ttl now e h hapi]
  | ok fresh =>
    cases hc : computedTtl ttl fresh with
    | error e => rw [fetchWithCache_of_ttlError json io tbl key api ttl now fresh e h hapi hc]
    | ok c => rw [fetchWithCache_of_fetched json io tbl key api ttl now fresh c h hapi hc]

/-- For a row that was read and whose data parses to `s`, the call is a hit exactly when the
row is younger than the TTL computed on the read path. -/
theorem hit_iff_fresh (json : Json) (io : Faults) (tbl : Table) (key : String)
    (api : Unit → Except JSError JSVal) (ttl : TtlSpec) (now : Int) (row : Row) (s : JSVal)
    (hrow : stmtGet io tbl key = .ok (some row)) (hparse : json.parse row.data = .ok s) :
    ((fetchWithCache json io tbl key api ttl now).result = .ok s ∧
      (fetchWithCache json io tbl key api ttl now).fetches = 0) ↔
    jsLt (.fin ((now - row.created_at : Int) : ℚ)) (cachedTtl json ttl row) = true := by
  cases hf : jsLt (.fin ((now - row.created_at : Int) : ℚ)) (cachedTtl json ttl row) with
  | true =>
    have hread := readCache_of_fresh json io tbl key ttl now row s hrow hparse hf
    rw [fetchWithCache_of_hit json io tbl key api ttl now s hread]
    exact ⟨fun _ => rfl, fun _ => ⟨rfl, rfl⟩⟩
  | false =>
    have hread := readCache_of_stale json io tbl key ttl now row hrow hf
    have h1 := fetches_of_miss json io tbl key api ttl now hread
    constructor
    · intro h
      rw [h1] at h
      exact absurd h.2 (by decide)
    · intro h
      exact absurd h (by decide)

/-- C6. Dynamic TTL on the read path is derived from the stored value: for a dynamic TTL
function `f` and a row whose data parses to `s`, (a) when `f s` is a number `n` other than
`NaN`, the call is a hit (returns `s`, no fetch) iff `now - created_at < max(1, n)`, and
otherwise it fetches once; (b) when `f s` throws, or is `NaN`, the effective TTL is one
second and the call is a hit iff `now - created_at < 1`. -/
theorem dynamic_ttl_from_stored_value (json : Json) (io : Faults) (tbl : Table)
    (key : String) (apiFunction : Unit → Except JSError JSVal)
    (f : JSVal → Except JSError JSNum) (now : Int) (row : Row) (s : JSVal)
    (hrow : stmtGet io tbl key = .ok (some row))
    (hparse : json.parse row.data = .ok s) :
    (∀ n, f s = .ok n → n ≠ .nan →
      (((fetchWithCache json io tbl key apiFunction (.dynamic f) now).result = .ok s ∧
        (fetchWithCache json io tbl key apiFunction (.dynamic f) now).fetches = 0) ↔
        jsLt (.fin ((now - row.created_at : Int) : ℚ)) (mathMax (.fin 1) n) = true) ∧
      (jsLt (.fin ((now - row.created_at : Int) : ℚ)) (mathMax (.fin 1) n) = false →
        (fetchWithCache json io tbl key apiFunction (.dynamic f) now).fetches = 1)) ∧
    ((f s = .ok .nan ∨ ∃ e, f s = .error e) →
      cachedTtl json (.dynamic f) row = .fin 1 ∧
      (((fetchWithCache json io tbl key apiFunction (.dynamic f) now).result = .ok s ∧
        (fetchWithCache json io tbl key apiFunction (.dynamic f) now).fetches = 0) ↔
        jsLt (.fin ((now - row.created_at : Int) : ℚ)) (.fin 1) = true)) := by
  have hiff := hit_iff_fresh json io tbl key apiFunction (.dynamic f) now row s hrow hparse
  constructor
  · intro n hn hnan
    have httl : cachedTtl json (.dynamic f) row = mathMax (.fin 1) n := by
      simp only [cachedTtl, hparse, hn, clampTtl_eq_mathMax hnan]
    rw [httl] at hiff
    refine ⟨hiff, fun hstale => ?_⟩
    apply fetches_of_miss
    apply readCache_of_stale json io tbl key (.dynamic f) now row hrow
    rw [httl]
    exact hstale
  · intro hbad
    have httl : cachedTtl json (.dynamic f) row = .fin 1 := by
      rcases hbad with hnan | ⟨e, he⟩
      · simp only [cachedTtl, hparse, hnan]
        rfl
      · simp only [cachedTtl, hparse, he]
    rw [httl] at hiff
    exact ⟨httl, hiff⟩

/-- Instance of C6: the stored object declares `expires_in: 5`; read 3 seconds after it
was stored it is a hit, read 6 seconds after it is fetched again. -/
theorem dynamic_ttl_from_stored_value_witness :
    stmtGet noFaults [⟨"play:a:en:ep:1", playText, 1000⟩] "play:a:en:ep:1"
      = .ok (some ⟨"play:a:en:ep:1", playText, 1000⟩) ∧
    sampleJson.parse playText = .ok playVal ∧
    expiresIn playVal = .ok (.fin 5) ∧
    ((fetchWithCache sampleJson noFaults [⟨"play:a:en:ep:1", playText, 1000⟩]
        "play:a:en:ep:1" (fun _ => .ok zeroVal) (.dynamic expiresIn) 1003).result
        = .ok playVal ∧
      (fetchWithCache sampleJson noFaults [⟨"play:a:en:ep:1", playText, 1000⟩]
        "play:a:en:ep:1" (fun _ => .ok zeroVal) (.dynamic expiresIn) 1003).fetches = 0) ∧
    (fetchWithCache sampleJson noFaults [⟨"play:a:en:ep:1", playText, 1000⟩]
      "play:a:en:ep:1" (fun _ => .ok zeroVal) (.dynamic expiresIn) 1006).fetches = 1 := by
  have h3 := (dynamic_ttl_from_stored_value sampleJson noFaults
    [⟨"play:a:en:ep:1", playText, 1000⟩] "play:a:en:ep:1" (fun _ => .ok zeroVal) expiresIn
    1003 ⟨"play:a:en:ep:1", playText, 1000⟩ playVal rfl rfl).1 (.fin 5) rfl
    (fun h => JSNum.noConfusion h)
  have h6 := (dynamic_ttl_from_stored_value sampleJson noFaults
    [⟨"play:a:en:ep:1", playText, 1000⟩] "play:a:en:ep:1" (fun _ => .ok zeroVal) expiresIn
    1006 ⟨"play:a:en:ep:1", playText, 1000⟩ playVal rfl rfl).1 (.fin 5) rfl
    (fun h => JSNum.noConfusion h)
  exact ⟨rfl, rfl, rfl, h3.1.mpr (by norm_num [jsLt, mathMax]),
    h6.2 (by norm_num [jsLt, mathMax])⟩

/-! ## C7: populate, then hit -/

/-- C7. Populate-then-hit round trip: for a key absent from the table, a fixed TTL
`T >= 1`, a fetch returning `v` whose text parses back to `v`, and no storage failure, a
first call at `t1` and a second call at `t2` with `t2 - t1 < T` (on the table the first
call left) both return `v`, and the fetch runs once in total: in the first call, not in
the second, whatever the second call's fetch would do. -/
theorem populate_then_hit (json : Json) (tbl : Table) (key : String)
    (apiFunction api2 : Unit → Except JSError JSVal) (T : JSNum) (t1 t2 : Int) (v : JSVal)
    (data : String)
    (habsent : selectRow tbl key = none)
    (hT : jsLe (.fin 1) T = true)
    (hfetch : apiFunction () = .ok v)
    (hser : json.stringify v = some data)
    (hround : json.parse data = .ok v)
    (hwithin : jsLt (.fin ((t2 - t1 : Int) : ℚ)) T = true) :
    (fetchWithCache json noFaults tbl key apiFunction (.fixed T) t1).result = .ok v ∧
    (fetchWithCache json noFaults
      (fetchWithCache json noFaults tbl key apiFunction (.fixed T) t1).table
      key api2 (.fixed T) t2).result = .ok v ∧
    (fetchWithCache json noFaults tbl key apiFunction (.fixed T) t1).fetches = 1 ∧
    (fetchWithCache json noFaults
      (fetchWithCache json noFaults tbl key apiFunction (.fixed T) t1).table
      key api2 (.fixed T) t2).fetches = 0 := by
  have hread := readCache_fixed_of_miss json tbl key T t1 hT (Or.inl habsent)
  rw [fetchWithCache_refresh_fixed json tbl key apiFunction T t1 v data hread hfetch hser]
  have hget : stmtGet noFaults (upsertRow tbl key data t1) key
      = .ok (some ⟨key, data, t1⟩) := by
    rw [stmtGet_noFaults, selectRow_upsertRow_self]
  have hhit : readCache json noFaults (upsertRow tbl key data t1) key (.fixed T) t2
      = some v := by
    apply readCache_of_fresh json noFaults _ key (.fixed T) t2 ⟨key, data, t1⟩ v hget hround
    rw [cachedTtl_fixed_of_ge_one json T _ hT]
    exact hwithin
  rw [fetchWithCache_of_hit json noFaults _ key api2 (.fixed T) t2 v hhit]
  exact ⟨rfl, rfl, rfl, rfl⟩

/-- Instance of C7: an empty table, TTL 3600, first call at 1000 and second at 1030; the
second call's fetch would fail, and is not run. -/
theorem populate_then_hit_witness :
    selectRow [] "home:en" = none ∧
    jsLe (.fin 1) (.fin 3600) = true ∧
    sampleJson.stringify (.str "v1") = some "\"v1\"" ∧
    sampleJson.parse "\"v1\"" = .ok (.str "v1") ∧
    jsLt (.fin (((1030 : Int) - 1000 : Int) : ℚ)) (.fin 3600) = true ∧
    (fetchWithCache sampleJson noFaults [] "home:en" (fun _ => .ok (.str "v1"))
      (.fixed (.fin 3600)) 1000).result = .ok (.str "v1") ∧
    (fetchWithCache sampleJson noFaults
      (fetchWithCache sampleJson noFaults [] "home:en" (fun _ => .ok (.str "v1"))
        (.fixed (.fin 3600)) 1000).table
      "home:en" (fun _ => .error "down") (.fixed (.fin 3600)) 1030).result
      = .ok (.str "v1") := by
  have h := populate_then_hit sampleJson [] "home:en" (fun _ => .ok (.str "v1"))
    (fun _ => .error "down") (.fin 3600) 1000 1030 (.str "v1") "\"v1\"" rfl
    (by norm_num [jsLe]) rfl rfl rfl (by norm_num [jsLt])
  exact ⟨rfl, by norm_num [jsLe], rfl, rfl, by norm_num [jsLt], h.1, h.2.1⟩

/-! ## C8: a malformed cached payload -/

/-- C8, refuted on the code: the stored text does not parse, the TTL function throws on
every value and the fetch succeeds with `v2`.  The fetch is invoked, but the result of the
call is the error of the TTL function, not the result of the fetch. -/
theorem malformed_payload_ttl_throws :
    sampleJson.parse "<html>" = .error "SyntaxError" ∧
    (fun (_ : Unit) => (Except.ok (JSVal.str "v2") : Except JSError JSVal)) ()
      = .ok (.str "v2") ∧
    (fetchWithCache sampleJson noFaults [⟨"home:en", "<html>", 1000⟩] "home:en"
      (fun _ => .ok (.str "v2")) (.dynamic throwingTtl) 1000).fetches = 1 ∧
    (fetchWithCache sampleJson noFaults [⟨"home:en", "<html>", 1000⟩] "home:en"
      (fun _ => .ok (.str "v2")) (.dynamic throwingTtl) 1000).result = .error "boom" ∧
    (fetchWithCache sampleJson noFaults [⟨"home:en", "<html>", 1000⟩] "home:en"
      (fun _ => .ok (.str "v2")) (.dynamic throwingTtl) 1000).result ≠ .ok (.str "v2") := by
  have hread : readCache sampleJson noFaults [⟨"home:en", "<html>", 1000⟩] "home:en"
      (.dynamic throwingTtl) 1000 = none :=
    readCache_of_malformed sampleJson noFaults [⟨"home:en", "<html>", 1000⟩] "home:en"
      (.dynamic throwingTtl) 1000 ⟨"home:en", "<html>", 1000⟩ "SyntaxError" rfl rfl
  rw [fetchWithCache_of_ttlError sampleJson noFaults [⟨"home:en", "<html>", 1000⟩] "home:en"
    (fun _ => .ok (.str "v2")) (.dynamic throwingTtl) 1000 (.str "v2") "boom" hread rfl rfl]
  exact ⟨rfl, rfl, rfl, rfl, fun h => Except.noConfusion h⟩

/-- C8, as the code has it: when the stored text of the row of `key` does not parse, for
every TTL argument, every `created_at` and every `now`, the call invokes the fetch once
and its result does not depend on the stored row: a failing fetch gives its error, a
fetch succeeding with `v` gives `v` when the TTL argument is a number or a function that
does not throw on `v`, and the error of that function when it throws on `v`. -/
theorem malformed_payload_refetches (json : Json) (io : Faults) (tbl : Table) (key : String)
    (apiFunction : Unit → Except JSError JSVal) (ttl_seconds : TtlSpec) (now : Int)
    (row : Row) (e : JSError)
    (hrow : stmtGet io tbl key = .ok (some row))
    (hbad : json.parse row.data = .error e) :
    (fetchWithCache json io tbl key apiFunction ttl_seconds now).fetches = 1 ∧
    (∀ E, apiFunction () = .error E →
      (fetchWithCache json io tbl key apiFunction ttl_seconds now).result = .error E) ∧
    (∀ v, apiFunction () = .ok v →
      (∀ f, ttl_seconds = .dynamic f → ∃ n, f v = .ok n) →
      (fetchWithCache json io tbl key apiFunction ttl_seconds now).result = .ok v) ∧
    (∀ v f X, apiFunction () = .ok v → ttl_seconds = .dynamic f → f v = .error X →
      (fetchWithCache json io tbl key apiFunction ttl_seconds now).result = .error X) := by
  have hread := readCache_of_malformed json io tbl key ttl_seconds now row e hrow hbad
  refine ⟨fetches_of_miss json io tbl key apiFunction ttl_seconds now hread, ?_, ?_, ?_⟩
  · intro E hE
    rw [fetchWithCache_of_fetchError json io tbl key apiFunction ttl_seconds now E hread hE]
  · intro v hv hok
    have hc : ∃ c, computedTtl ttl_seconds v = .ok c := by
      cases ttl_seconds with
      | fixed T => exact ⟨clampTtl T, rfl⟩
      | dynamic f =>
        obtain ⟨n, hn⟩ := hok f rfl
        exact ⟨clampTtl n, by simp only [computedTtl, hn]⟩
    obtain ⟨c, hc⟩ := hc
    rw [fetchWithCache_of_fetched json io tbl key apiFunction ttl_seconds now v c hread hv hc]
  · intro v f X hv hdyn hX
    subst hdyn
    have hc : computedTtl (.dynamic f) v = .error X := by simp only [computedTtl, hX]
    rw [fetchWithCache_of_ttlError json io tbl key apiFunction (.dynamic f) now v X hread
      hv hc]

/-- Instance of the amended C8: a row stored in the same second holds text that does not
parse; with a fixed TTL the call fetches and returns `v2`. -/
theorem malformed_payload_refetches_witness :
    stmtGet noFaults [⟨"home:en", "<html>", 1000⟩] "home:en"
      = .ok (some ⟨"home:en", "<html>", 1000⟩) ∧
    sampleJson.parse "<html>" = .error "SyntaxError" ∧
    (fetchWithCache sampleJson noFaults [⟨"home:en", "<html>", 1000⟩] "home:en"
      (fun _ => .ok (.str "v2")) (.fixed (.fin 3600)) 1000).fetches = 1 ∧
    (fetchWithCache sampleJson noFaults [⟨"home:en", "<html>", 1000⟩] "home:en"
      (fun _ => .ok (.str "v2")) (.fixed (.fin 3600)) 1000).result = .ok (.str "v2") := by
  have h := malformed_payload_refetches sampleJson noFaults [⟨"home:en", "<html>", 1000⟩]
    "home:en" (fun _ => .ok (.str "v2")) (.fixed (.fin 3600)) 1000
    ⟨"home:en", "<html>", 1000⟩ "SyntaxError" rfl rfl
  exact ⟨rfl, rfl, h.1, h.2.2.1 (.str "v2") rfl (fun f hf => TtlSpec.noConfusion hf)⟩

/-! ## C9: the clamp on the read path -/

/-- C9. Read-side TTL clamp: for a fixed TTL `T` that is `NaN`, zero or negative
(`-Infinity` included) the TTL used for the freshness test is exactly 1; for every integer
`T` it is `max(1, T)`.  Hence, for such a `T` and a row whose data parses to `v`, a row
with `created_at = now` is served without a fetch and a row with `now - created_at >= 1`
is stale and leads to a fetch. -/
theorem read_ttl_clamp (json : Json) (io : Faults) (tbl : Table) (key : String)
    (apiFunction : Unit → Except JSError JSVal) (T : JSNum) (now : Int) (row : Row)
    (v : JSVal)
    (hT : T = .nan ∨ jsLe T (.fin 0) = true)
    (hrow : stmtGet io tbl key = .ok (some row))
    (hparse : json.parse row.data = .ok v) :
    cachedTtl json (.fixed T) row = .fin 1 ∧
    (∀ z : Int, cachedTtl json (.fixed (.fin (z : ℚ))) row = .fin ((max 1 z : Int) : ℚ)) ∧
    (row.created_at = now →
      (fetchWithCache json io tbl key apiFunction (.fixed T) now).result = .ok v ∧
      (fetchWithCache json io tbl key apiFunction (.fixed T) now).fetches = 0) ∧
    (1 ≤ now - row.created_at →
      (fetchWithCache json io tbl key apiFunction (.fixed T) now).fetches = 1) := by
  have httl : cachedTtl json (.fixed T) row = .fin 1 := by
    rcases hT with hnan | hle
    · subst hnan
      rfl
    · simp only [cachedTtl, clampTtl_of_le_zero hle]
  refine ⟨httl, ?_, ?_, ?_⟩
  · intro z
    simp only [cachedTtl, clampTtl_fin]
    push_cast
    rfl
  · intro hnow
    apply (hit_iff_fresh json io tbl key apiFunction (.fixed T) now row v hrow hparse).mpr
    rw [httl, hnow]
    have : (now - now : Int) = 0 := by omega
    rw [this]
    norm_num [jsLt]
  · intro hage
    apply fetches_of_miss
    apply readCache_of_stale json io tbl key (.fixed T) now row hrow
    rw [httl]
    have hq : ¬ (((now - row.created_at : Int) : ℚ) < 1) := by
      have : ((1 : Int) : ℚ) ≤ ((now - row.created_at : Int) : ℚ) := Int.cast_le.mpr hage
      rw [Int.cast_one] at this
      exact not_lt.mpr this
    simp only [jsLt, hq, decide_False]

/-- Instance of C9: with the fixed TTL 0, a row stored at 1000 is served at 1000. -/
theorem read_ttl_clamp_witness :
    jsLe (.fin 0) (.fin 0) = true ∧
    cachedTtl sampleJson (.fixed (.fin 0)) ⟨"home:en", "\"v1\"", 1000⟩ = .fin 1 ∧
    (fetchWithCache sampleJson noFaults [⟨"home:en", "\"v1\"", 1000⟩] "home:en"
      (fun _ => .ok (.str "v2")) (.fixed (.fin 0)) 1000).result = .ok (.str "v1") ∧
    (fetchWithCache sampleJson noFaults [⟨"home:en", "\"v1\"", 1000⟩] "home:en"
      (fun _ => .ok (.str "v2")) (.fixed (.fin 0)) 1000).fetches = 0 := by
  have h := read_ttl_clamp sampleJson noFaults [⟨"home:en", "\"v1\"", 1000⟩] "home:en"
    (fun _ => .ok (.str "v2")) (.fin 0) 1000 ⟨"home:en", "\"v1\"", 1000⟩ (.str "v1")
    (Or.inr (by norm_num [jsLe])) rfl rfl
  exact ⟨by norm_num [jsLe], h.1, (h.2.2.1 rfl).1, (h.2.2.1 rfl).2⟩

/-! ## C10: the write TTL is at least one -/

theorem branch_ne_delete (json : Json) (io : Faults) (tbl : Table) (key : String)
    (api : Unit → Except JSError JSVal) (ttl : TtlSpec) (now : Int) :
    (fetchWithCache json io tbl key api ttl now).branch ≠ .delete := by
  cases hread : readCache json io tbl key ttl now with
  | some v =>
    rw [fetchWithCache_of_hit json io tbl key api ttl now v hread]
    exact fun h => Branch.noConfusion h
  | none =>
    cases hapi : api () with
    | error e =>
      rw [fetchWithCache_of_fetchError json io tbl key api ttl now e hread hapi]
      exact fun h => Branch.noConfusion h
    | ok fresh =>
      cases hc : computedTtl ttl fresh with
      | error e =>
        rw [fetchWithCache_of_ttlError json io tbl key api ttl now fresh e hread hapi hc]
        exact fun h => Branch.noConfusion h
      | ok c =>
        rw [fetchWithCache_of_fetched json io tbl key api ttl now fresh c hread hapi hc]
        exact fun h => Branch.noConfusion h

/-- C10. The computed write TTL is never zero or negative: for every TTL argument (a
number, or a function that does not throw on the fresh value) `computedTtl` is at least 1,
so `computedTtl > 0` holds; after every successful fetch the upsert branch is taken, and
no call at all ends in the delete branch. -/
theorem write_ttl_at_least_one (json : Json) (io : Faults) (tbl : Table) (key : String)
    (apiFunction : Unit → Except JSError JSVal) (ttl_seconds : TtlSpec) (now : Int) :
    (∀ fresh c, computedTtl ttl_seconds fresh = .ok c →
      jsLe (.fin 1) c = true ∧ jsLt (.fin 0) c = true) ∧
    (∀ fresh c, readCache json io tbl key ttl_seconds now = none →
      apiFunction () = .ok fresh → computedTtl ttl_seconds fresh = .ok c →
      (fetchWithCache json io tbl key apiFunction ttl_seconds now).branch = .upsert) ∧
    (fetchWithCache json io tbl key apiFunction ttl_seconds now).branch ≠ .delete := by
  refine ⟨?_, ?_, branch_ne_delete json io tbl key apiFunction ttl_seconds now⟩
  · intro fresh c hc
    refine ⟨?_, computedTtl_pos ttl_seconds fresh c hc⟩
    cases ttl_seconds with
    | fixed n =>
      simp only [computedTtl, Except.ok.injEq] at hc
      rw [← hc]
      exact clampTtl_ge_one n
    | dynamic f =>
      simp only [computedTtl] at hc
      split at hc
      · simp at hc
      · simp only [Except.ok.injEq] at hc
        rw [← hc]
        exact clampTtl_ge_one _
  · intro fresh c hread hapi hc
    rw [fetchWithCache_of_fetched json io tbl key apiFunction ttl_seconds now fresh c hread
      hapi hc]

/-- Instance of C10: the TTL function yields 0 on the fresh value, the write TTL is 1 and
the call ends in the upsert branch. -/
theorem write_ttl_at_least_one_witness :
    computedTtl (.dynamic expiresIn) zeroVal = .ok (.fin 1) ∧
    jsLe (.fin 1) (.fin 1) = true ∧
    jsLt (.fin 0) (.fin 1) = true ∧
    (fetchWithCache sampleJson noFaults [] "play:b:en:ep:2" (fun _ => .ok zeroVal)
      (.dynamic expiresIn) 1000).branch = .upsert := by
  have hc : computedTtl (.dynamic expiresIn) zeroVal = .ok (.fin 1) := by
    have : computedTtl (.dynamic expiresIn) zeroVal = .ok (clampTtl (.fin 0)) := rfl
    rw [this, clampTtl_fin]
    norm_num
  have h := write_ttl_at_least_one sampleJson noFaults [] "play:b:en:ep:2"
    (fun _ => .ok zeroVal) (.dynamic expiresIn) 1000
  exact ⟨hc, (h.1 zeroVal (.fin 1) hc).1, (h.1 zeroVal (.fin 1) hc).2,
    h.2.1 zeroVal (.fin 1) rfl rfl hc⟩

/-! ## C11: the play-link TTL function -/

theorem getField_of_absent (name : String) (fields : List (String × JSVal))
    (h : ∀ v, (name, v) ∉ fields) : getField name fields = .undefined := by
  induction fields with
  | nil => rfl
  | cons p rest ih =>
    obtain ⟨k, v⟩ := p
    have hk : k ≠ name := by
      intro hk
      exact h v (by rw [hk]; exact List.mem_cons_self _ _)
    have hrest : ∀ w, (name, w) ∉ rest := fun w hw => h w (List.mem_cons_of_mem _ hw)
    simp only [getField, hk, if_false]
    exact ih hrest

theorem playTtl_of_pos (rt : Coercions) (fresh : JSVal) (q : ℚ)
    (h : toNumber rt (optExpiresIn fresh) = .ok (.fin q)) (hq : 0 < q) :
    playTtl rt fresh = .ok (.fin q) := by
  simp only [playTtl, h, isFinite, jsLt, hq, decide_True, Bool.and_self, if_true]

theorem playTtl_of_not_pos (rt : Coercions) (fresh : JSVal) (n : JSNum)
    (hn : toNumber rt (optExpiresIn fresh) = .ok n)
    (h : isFinite n = false ∨ jsLt (.fin 0) n = false) :
    playTtl rt fresh = .ok (.fin 600) := by
  rcases h with h | h
  · simp only [playTtl, hn, h, Bool.false_and, Bool.false_eq_true, if_false]
  · simp only [playTtl, hn, h, Bool.and_false, Bool.false_eq_true, if_false]

theorem playTtl_of_throw (rt : Coercions) (fresh : JSVal) (e : JSError) :
    toNumber rt (optExpiresIn fresh) = .error e ↔ playTtl rt fresh = .error e := by
  cases hn : toNumber rt (optExpiresIn fresh) with
  | error e2 => simp only [playTtl, hn]
  | ok n =>
    simp only [playTtl, hn]
    constructor
    · intro h
      exact Except.noConfusion h
    · intro h
      split at h <;> exact Except.noConfusion h

theorem toNumber_obj (rt : Coercions) (fields : List (String × JSVal)) :
    toNumber rt (.obj fields)
      = if hasOwn "toString" fields then .error typeError else .ok .nan := by
  cases h : hasOwn "toString" fields <;> simp [toNumber, objectText, h]

theorem toNumber_throw_only (rt : Coercions) (v : JSVal) (e : JSError)
    (h : toNumber rt v = .error e) :
    (∃ items, v = .arr items) ∨ (∃ fields, v = .obj fields ∧ hasOwn "toString" fields = true) := by
  cases v with
  | undefined => exact Except.noConfusion h
  | null => exact Except.noConfusion h
  | bool b => cases b <;> exact Except.noConfusion h
  | num n => exact Except.noConfusion h
  | str s => exact Except.noConfusion h
  | arr items => exact Or.inl ⟨items, rfl⟩
  | obj fields =>
    refine Or.inr ⟨fields, rfl, ?_⟩
    rw [toNumber_obj] at h
    cases hown : hasOwn "toString" fields with
    | true => rfl
    | false =>
      rw [hown] at h
      exact Except.noConfusion h

/-- C11, refuted on the code: the fetched play link is
`{"url":"https://cdn/a.m3u8","expires_in":{"toString":1}}`.  `Number` cannot convert the
object under `expires_in` to a primitive value and throws, so the TTL function throws: it
has no result, in particular none that is a finite number greater than 0. -/
theorem play_ttl_throws_on_unconvertible :
    optExpiresIn unconvertibleExpiryVal = .obj [("toString", .num (.fin 1))] ∧
    toNumber sampleCoercions (optExpiresIn unconvertibleExpiryVal) = .error typeError ∧
    playTtl sampleCoercions unconvertibleExpiryVal = .error typeError ∧
    ¬ ∃ n, playTtl sampleCoercions unconvertibleExpiryVal = .ok n := by
  have h : playTtl sampleCoercions unconvertibleExpiryVal = .error typeError := rfl
  refine ⟨rfl, rfl, h, ?_⟩
  rintro ⟨n, hn⟩
  rw [h] at hn
  exact Except.noConfusion hn

/-- C11, as the code has it: the play-link TTL function of the routes `/watch/:code` and
`/api/play/:code` returns `Number(fresh?.expires_in)` when that conversion yields a number
that is finite and greater than 0, and 600 when it yields any other number: finite and at
most 0, `NaN` or infinite, in particular when `fresh` is `null` or `undefined` and when
`fresh` is an object without the property.  When the conversion throws, the function
throws the same error; that happens only if `expires_in` is an array or an object with an
own property `toString`, and always for such an object.  Hence whenever the function
returns, its result is a finite number greater than 0. -/
theorem play_ttl_finite_positive_or_throws (rt : Coercions) (fresh : JSVal) :
    (∀ q : ℚ, toNumber rt (optExpiresIn fresh) = .ok (.fin q) → 0 < q →
      playTtl rt fresh = .ok (.fin q)) ∧
    (∀ q : ℚ, toNumber rt (optExpiresIn fresh) = .ok (.fin q) → q ≤ 0 →
      playTtl rt fresh = .ok (.fin 600)) ∧
    ((toNumber rt (optExpiresIn fresh) = .ok .nan ∨
      toNumber rt (optExpiresIn fresh) = .ok .posInf ∨
      toNumber rt (optExpiresIn fresh) = .ok .negInf) →
      playTtl rt fresh = .ok (.fin 600)) ∧
    playTtl rt .null = .ok (.fin 600) ∧
    playTtl rt .undefined = .ok (.fin 600) ∧
    (∀ fields, (∀ v, ("expires_in", v) ∉ fields) →
      playTtl rt (.obj fields) = .ok (.fin 600)) ∧
    (∀ e, toNumber rt (optExpiresIn fresh) = .error e ↔ playTtl rt fresh = .error e) ∧
    (∀ e, playTtl rt fresh = .error e →
      (∃ items, optExpiresIn fresh = .arr items) ∨
      (∃ fields, optExpiresIn fresh = .obj fields ∧ hasOwn "toString" fields = true)) ∧
    (∀ fields, optExpiresIn fresh = .obj fields → hasOwn "toString" fields = true →
      playTtl rt fresh = .error typeError) ∧
    (∀ n, playTtl rt fresh = .ok n → ∃ q : ℚ, n = .fin q ∧ 0 < q) := by
  refine ⟨fun q h hq => playTtl_of_pos rt fresh q h hq, ?_, ?_, ?_, ?_, ?_,
    fun e => playTtl_of_throw rt fresh e, ?_, ?_, ?_⟩
  · intro q h hq
    apply playTtl_of_not_pos rt fresh (.fin q) h
    right
    simp only [jsLt, not_lt.mpr hq, decide_False]
  · intro h
    rcases h with h | h | h
    · exact playTtl_of_not_pos rt fresh .nan h (Or.inl rfl)
    · exact playTtl_of_not_pos rt fresh .posInf h (Or.inl rfl)
    · exact playTtl_of_not_pos rt fresh .negInf h (Or.inl rfl)
  · exact playTtl_of_not_pos rt .null .nan rfl (Or.inl rfl)
  · exact playTtl_of_not_pos rt .undefined .nan rfl (Or.inl rfl)
  · intro fields hmissing
    apply playTtl_of_not_pos rt (.obj fields) .nan _ (Or.inl rfl)
    simp only [optExpiresIn, getField_of_absent "expires_in" fields hmissing, toNumber]
  · intro e he
    exact toNumber_throw_only rt (optExpiresIn fresh) e
      ((playTtl_of_throw rt fresh e).mpr he)
  · intro fields hobj hown
    apply (playTtl_of_throw rt fresh typeError).mp
    rw [hobj, toNumber_obj, hown]
    rfl
  · intro n hn
    cases hc : toNumber rt (optExpiresIn fresh) with
    | error e =>
      rw [(playTtl_of_throw rt fresh e).mp hc] at hn
      exact Except.noConfusion hn
    | ok m =>
      cases m with
      | nan =>
        rw [playTtl_of_not_pos rt fresh .nan hc (Or.inl rfl)] at hn
        exact ⟨600, (Except.ok.inj hn).symm, by norm_num⟩
      | posInf =>
        rw [playTtl_of_not_pos rt fresh .posInf hc (Or.inl rfl)] at hn
        exact ⟨600, (Except.ok.inj hn).symm, by norm_num⟩
      | negInf =>
        rw [playTtl_of_not_pos rt fresh .negInf hc (Or.inl rfl)] at hn
        exact ⟨600, (Except.ok.inj hn).symm, by norm_num⟩
      | fin q =>
        by_cases hq : 0 < q
        · rw [playTtl_of_pos rt fresh q hc hq] at hn
          exact ⟨q, (Except.ok.inj hn).symm, hq⟩
        · have hlt : jsLt (.fin 0) (.fin q) = false := by
            simp only [jsLt, hq, decide_False]
          rw [playTtl_of_not_pos rt fresh (.fin q) hc (Or.inr hlt)] at hn
          exact ⟨600, (Except.ok.inj hn).symm, by norm_num⟩

/-- Instance of the amended C11: the play link declares `expires_in` as the string
`"300"`, which converts to 300, and the TTL is 300. -/
theorem play_ttl_finite_positive_or_throws_witness :
    toNumber sampleCoercions (optExpiresIn textExpiryVal) = .ok (.fin 300) ∧
    playTtl sampleCoercions textExpiryVal = .ok (.fin 300) := by
  have hn : toNumber sampleCoercions (optExpiresIn textExpiryVal) = .ok (.fin 300) := by
    simp [toNumber, optExpiresIn, textExpiryVal, getField, sampleCoercions,
      sampleStringToNumber, digitsValue]
  exact ⟨hn, (play_ttl_finite_positive_or_throws sampleCoercions textExpiryVal).1 300 hn
    (by norm_num)⟩

/-! ## C12: a TTL function that throws on the fresh value -/

/-- C12. A dynamic TTL function that fails on the freshly fetched value makes the whole
call fail without persisting: whenever the call does not hit (the read throws, the key is
absent, the row is stale, or the stored text does not parse), the fetch succeeds with `v`
and the TTL function throws `X` on `v`, the call fails with `X` after one fetch, `v` is not
returned, and the table is the one before the call: the call ends before the upsert and
the delete branch. -/
theorem ttl_failure_fails_call (json : Json) (io : Faults) (tbl : Table) (key : String)
    (apiFunction : Unit → Except JSError JSVal) (f : JSVal → Except JSError JSNum)
    (now : Int) (v : JSVal) (X : JSError)
    (hmiss : (∃ e, stmtGet io tbl key = .error e) ∨
      stmtGet io tbl key = .ok none ∨
      (∃ row, stmtGet io tbl key = .ok (some row) ∧
        jsLt (.fin ((now - row.created_at : Int) : ℚ)) (cachedTtl json (.dynamic f) row)
          = false) ∨
      (∃ row e, stmtGet io tbl key = .ok (some row) ∧ json.parse row.data = .error e))
    (hfetch : apiFunction () = .ok v)
    (hthrow : f v = .error X) :
    (fetchWithCache json io tbl key apiFunction (.dynamic f) now).result = .error X ∧
    (fetchWithCache json io tbl key apiFunction (.dynamic f) now).result ≠ .ok v ∧
    (fetchWithCache json io tbl key apiFunction (.dynamic f) now).fetches = 1 ∧
    (fetchWithCache json io tbl key apiFunction (.dynamic f) now).table = tbl ∧
    (fetchWithCache json io tbl key apiFunction (.dynamic f) now).branch = .ttlThrew := by
  have hread : readCache json io tbl key (.dynamic f) now = none := by
    rcases hmiss with ⟨e, he⟩ | habs | ⟨row, hrow, hstale⟩ | ⟨row, e, hrow, hbad⟩
    · exact readCache_of_getError json io tbl key (.dynamic f) now e he
    · exact readCache_of_absent json io tbl key (.dynamic f) now habs
    · exact readCache_of_stale json io tbl key (.dynamic f) now row hrow hstale
    · exact readCache_of_malformed json io tbl key (.dynamic f) now row e hrow hbad
  have hc : computedTtl (.dynamic f) v = .error X := by
    simp only [computedTtl, hthrow]
  rw [fetchWithCache_of_ttlError json io tbl key apiFunction (.dynamic f) now v X hread
    hfetch hc]
  exact ⟨rfl, fun h => Except.noConfusion h, rfl, rfl, rfl⟩

/-- Instance of C12: a stale row is in the table, the fetch resolves with `null`, on which
reading `expires_in` throws; the call fails with that error and the stale row stays. -/
theorem ttl_failure_fails_call_witness :
    (∃ row, stmtGet noFaults [⟨"play:c:en:ep:3", playText, 900⟩] "play:c:en:ep:3"
        = .ok (some row) ∧
      jsLt (.fin (((1000 : Int) - row.created_at : Int) : ℚ))
        (cachedTtl sampleJson (.dynamic expiresIn) row) = false) ∧
    expiresIn .null = .error "TypeError" ∧
    (fetchWithCache sampleJson noFaults [⟨"play:c:en:ep:3", playText, 900⟩]
      "play:c:en:ep:3" (fun _ => .ok .null) (.dynamic expiresIn) 1000).result
      = .error "TypeError" ∧
    (fetchWithCache sampleJson noFaults [⟨"play:c:en:ep:3", playText, 900⟩]
      "play:c:en:ep:3" (fun _ => .ok .null) (.dynamic expiresIn) 1000).table
      = [⟨"play:c:en:ep:3", playText, 900⟩] := by
  have hstale : ∃ row, stmtGet noFaults [⟨"play:c:en:ep:3", playText, 900⟩]
      "play:c:en:ep:3" = .ok (some row) ∧
      jsLt (.fin (((1000 : Int) - row.created_at : Int) : ℚ))
        (cachedTtl sampleJson (.dynamic expiresIn) row) = false := by
    refine ⟨⟨"play:c:en:ep:3", playText, 900⟩, rfl, ?_⟩
    have : cachedTtl sampleJson (.dynamic expiresIn) ⟨"play:c:en:ep:3", playText, 900⟩
        = clampTtl (.fin 5) := rfl
    rw [this, clampTtl_fin]
    norm_num [jsLt]
  have h := ttl_failure_fails_call sampleJson noFaults [⟨"play:c:en:ep:3", playText, 900⟩]
    "play:c:en:ep:3" (fun _ => .ok .null) expiresIn 1000 .null "TypeError"
    (Or.inr (Or.inr (Or.inl hstale))) rfl rfl
  exact ⟨hstale, rfl, h.1, h.2.2.2.1⟩

end CacheStore
